import Mathlib

/-!
Verification of the substrate try-runtime `on_runtime_upgrade` pipeline
(`utils/frame/try-runtime/cli/src/commands/on_runtime_upgrade.rs`) and of
the NFTs lock features (`frame/nfts/src/features/lock.rs`,
`frame/nfts/src/features/settings.rs`), as a shallow embedding in Lean 4.

External collaborators of the pipeline (state builder, `extract_code`,
`local_spec`, `ensure_matching_spec`, `state_machine_call_with_proof`,
and the codec layout of `sp_weights::Weight`) live outside the sources
at hand; they are modelled from the specification, each marked with a
doc comment starting `Modelled from the spec:`.
-/

namespace Substrate

/-! ## Bytes, keys and values -/

/-- Opaque bytes: a list of byte values. -/
abbrev Bytes := List Nat

/-! ## Result decoder

`on_runtime_upgrade.rs` lines 82-83 decode the encoded return value with
`<(Weight, Weight) as Decode>::decode(&mut &*encoded_result)`. -/

/-- A resource-metric record (`sp_weights::Weight`): two non-negative
64-bit dimensions, computation (`ref_time`) and footprint (`proof_size`). -/
structure Weight where
  ref_time : Nat
  proof_size : Nat
  deriving DecidableEq, Repr

/-- The value of a little-endian byte sequence. -/
def u64FromLE (bs : Bytes) : Nat :=
  bs.foldr (fun b acc => b + 256 * acc) 0

/-- Modelled from the spec: the fixed-layout encoding of one 64-bit
dimension of a ResourceMetric record (the codec derive on
`sp_weights::Weight` is outside the sources shown).  Reads eight
little-endian bytes from the front of the stream and returns the value
together with the unread remainder; fails if fewer than eight bytes
remain. -/
def readU64LE (bs : Bytes) : Option (Nat × Bytes) :=
  if 8 ≤ bs.length then some (u64FromLE (bs.take 8), bs.drop 8) else none

/-- Modelled from the spec: decoding one fixed-layout ResourceMetric
record — the computation dimension followed by the footprint dimension —
from the front of a byte stream, returning the unread remainder. -/
def decodeWeight (bs : Bytes) : Option (Weight × Bytes) :=
  match readU64LE bs with
  | none => none
  | some (rt, rest) =>
    match readU64LE rest with
    | none => none
    | some (ps, rest2) => some (⟨rt, ps⟩, rest2)

/-- Errors a pipeline stage can fail with (spec §7 taxonomy). -/
inductive PipelineError where
  | fetchError
  | decodeError
  | consistencyError
  | executionError
  | encodingError
  deriving DecidableEq, Repr

/-- The decode of the raw return value at line 82 of
`on_runtime_upgrade.rs`: `Decode::decode` for the pair `(Weight, Weight)`
reads the consumed record and then the total record from the front of the
input and stops there — it consumes a prefix and does not inspect any
bytes left over. -/
def decodeWeightPair (raw : Bytes) : Except PipelineError (Weight × Weight) :=
  match decodeWeight raw with
  | none => .error .decodeError
  | some (consumed, rest) =>
    match decodeWeight rest with
    | none => .error .decodeError
    | some (total, _rest2) => .ok (consumed, total)

/-! ## Reporter (lines 84-91) -/

/-- The utilization ratio of one dimension, from lines 89-90:
`(consumed as f64 / total.max(1) as f64) * 100.0`, expressed in exact
rational arithmetic. -/
def ratio (consumed total : Nat) : ℚ :=
  (consumed : ℚ) / ((max total 1 : Nat) : ℚ) * 100

/-- The informational report emitted at lines 84-91: both raw records and
the per-dimension utilization ratios. -/
structure Report where
  consumedRefTime : Nat
  consumedProofSize : Nat
  totalRefTime : Nat
  totalProofSize : Nat
  refTimeRatio : ℚ
  proofSizeRatio : ℚ
  deriving DecidableEq, Repr

/-- Builds the report from the decoded (consumed, total) pair. -/
def mkReport (w tw : Weight) : Report :=
  { consumedRefTime := w.ref_time
    consumedProofSize := w.proof_size
    totalRefTime := tw.ref_time
    totalProofSize := tw.proof_size
    refTimeRatio := ratio w.ref_time tw.ref_time
    proofSizeRatio := ratio w.proof_size tw.proof_size }

/-! ## State overlay builder (lines 55-59)

`builder.inject_hashed_key_value(&[(code_key, code)]).build()`. -/

/-- A base state / overlay: a mapping from byte-keys to byte-values. -/
abbrev Overlay := Bytes → Option Bytes

/-- Modelled from the spec: the overlay builder's injection
(`inject_hashed_key_value` of the remote-externalities builder, outside
the sources shown).  Pure merge: each injected pair overwrites any
existing value for the same key in the base; unspecified keys are
unaffected.  Pairs are applied left to right. -/
def inject (base : Overlay) : List (Bytes × Bytes) → Overlay
  | [] => base
  | (k, v) :: rest => inject (fun k2 => if k2 = k then some v else base k2) rest

/-! ## The state source and the pipeline (lines 39-93) -/

/-- Modelled from the spec: the `State` subcommand of the CLI (outside
the sources shown) — a tagged choice between a live remote endpoint
(with an optional block reference) and a local snapshot file. -/
inductive State where
  | live (uri : String) (at_block : Option Nat)
  | snap (path : String)
  deriving DecidableEq, Repr

/-- Modelled from the spec: `State::live_uri` — the endpoint reference,
present only for the Live variant. -/
def State.live_uri : State → Option String
  | .live uri _ => some uri
  | .snap _ => none

/-- An identity: the (spec name, spec version) pair compared by the
consistency check (the raw encoded third component of `local_spec` is
diagnostic only and ignored by the pipeline, line 62). -/
structure SpecId where
  name : String
  version : Nat
  deriving DecidableEq, Repr

/-- The execution-mode selector forwarded unchanged to the engine
(`shared.execution`, an `ExecutionStrategy`). -/
inductive ExecutionMode where
  | native
  | wasm
  | both
  | nativeElseWasm
  deriving DecidableEq, Repr

/-- Extensions handed to the engine; the pipeline always passes
`Default::default()` (line 79). -/
abbrev Extensions := List Nat

/-- The default (empty) extensions. -/
def defaultExtensions : Extensions := []

/-- The `SharedParams` fields the pipeline reads: the execution mode and
the `no_spec_check_panic` relaxation flag (the state-encoding version
only parameterises the builder and is absorbed into the fetch oracle). -/
structure SharedParams where
  execution : ExecutionMode
  no_spec_check_panic : Bool
  deriving DecidableEq, Repr

/-- `OnRuntimeUpgradeCmd`: the state subcommand. -/
structure OnRuntimeUpgradeCmd where
  state : State
  deriving DecidableEq, Repr

/-- Observable interactions of one pipeline run, recorded in order: the
identity consistency check being performed, the non-strict mismatch
warning, and each call of the entry-point invoker with its exact
arguments. -/
inductive PipelineEvent where
  | specCheck (expected actual : SpecId)
  | warning
  | invoke (entry_point : String) (args : Bytes) (mode : ExecutionMode)
      (ext : Extensions)
  deriving DecidableEq, Repr

/-- Whether an event is an entry-point invocation. -/
def PipelineEvent.isInvoke : PipelineEvent → Bool
  | .invoke _ _ _ _ => true
  | _ => false

/-- Whether an event is the identity consistency check. -/
def PipelineEvent.isSpecCheck : PipelineEvent → Bool
  | .specCheck _ _ => true
  | _ => false

/-- The external collaborators the pipeline drives, as oracles: builder
construction, code extraction from the chain spec, the base-state fetch,
the local and live identity queries, and the execution engine call
returning (proof, encoded result). -/
structure Env where
  builderOk : State → Except PipelineError Unit
  extractCode : Except PipelineError (Bytes × Bytes)
  fetch : State → Except PipelineError Overlay
  localSpec : Overlay → SpecId
  liveSpec : String → SpecId
  call : Overlay → String → Bytes → ExecutionMode → Extensions →
    Except PipelineError (Bytes × Bytes)

/-- Modelled from the spec: `ensure_matching_spec` (outside the sources
shown).  Compares the expected and actual identities by name and
version; on mismatch it aborts with a ConsistencyError when strict (the
relaxation flag false) and degrades to a warning when relaxed.  Returns
the verdict together with whether a warning was logged. -/
def ensure_matching_spec (expected actual : SpecId) (relaxed : Bool) :
    Except PipelineError Unit × Bool :=
  if expected = actual then (.ok (), false)
  else if relaxed then (.ok (), true)
  else (.error .consistencyError, false)

/-- The entry-point name hardcoded at line 77. -/
def onRuntimeUpgradeEntryPoint : String := "TryRuntime_on_runtime_upgrade"

/-- The `on_runtime_upgrade` pipeline (lines 39-93): build the overlay
from the state source plus the injected code pair, run the identity
consistency check when the source is live, invoke the hardcoded entry
point with empty arguments, the caller's execution mode and default
extensions, then decode the raw return as two weight records and report.
Returns the pipeline's outcome together with the ordered event trace. -/
def on_runtime_upgrade (env : Env) (shared : SharedParams)
    (command : OnRuntimeUpgradeCmd) :
    Except PipelineError Report × List PipelineEvent :=
  match env.builderOk command.state with
  | .error e => (.error e, [])
  | .ok () =>
    match env.extractCode with
    | .error e => (.error e, [])
    | .ok (code_key, code) =>
      match env.fetch command.state with
      | .error e => (.error e, [])
      | .ok base =>
        let ext := inject base [(code_key, code)]
        let (checkRes, evs) :=
          match command.state.live_uri with
          | none => (Except.ok (), ([] : List PipelineEvent))
          | some uri =>
            let expected := env.localSpec ext
            let actual := env.liveSpec uri
            let (r, warned) :=
              ensure_matching_spec expected actual shared.no_spec_check_panic
            (r, .specCheck expected actual ::
              (if warned then [.warning] else []))
        match checkRes with
        | .error e => (.error e, evs)
        | .ok () =>
          let invokeEv := PipelineEvent.invoke onRuntimeUpgradeEntryPoint []
            shared.execution defaultExtensions
          match env.call ext onRuntimeUpgradeEntryPoint [] shared.execution
              defaultExtensions with
          | .error e => (.error e, evs ++ [invokeEv])
          | .ok (_proof, encoded) =>
            match decodeWeightPair encoded with
            | .error e => (.error e, evs ++ [invokeEv])
            | .ok (weight, total_weight) =>
              (.ok (mkReport weight total_weight), evs ++ [invokeEv])

end Substrate

namespace Nfts

/-! ## NFTs pallet: lock features (`frame/nfts/src/features/lock.rs`)
and config getters (`frame/nfts/src/features/settings.rs`). -/

/-- Account and collection/item identifiers, abstracted to naturals. -/
abbrev AccountId := Nat

/-- Collection roles of the pallet. -/
inductive CollectionRole where
  | issuer
  | freezer
  | admin
  deriving DecidableEq, Repr

/-- Item-level settings. -/
inductive ItemSetting where
  | transferable
  | unlockedMetadata
  | unlockedAttributes
  deriving DecidableEq, Repr

/-- Modelled from the spec: the item config (the bitflag type in the
pallet's `types.rs` is outside the sources shown).  One disabled-flag
per item setting; a set flag means the setting is disabled. -/
structure ItemConfig where
  transferableDisabled : Bool
  metadataDisabled : Bool
  attributesDisabled : Bool
  deriving DecidableEq, Repr

/-- Modelled from the spec: `ItemConfig::has_disabled_setting`. -/
def ItemConfig.has_disabled_setting (c : ItemConfig) : ItemSetting → Bool
  | .transferable => c.transferableDisabled
  | .unlockedMetadata => c.metadataDisabled
  | .unlockedAttributes => c.attributesDisabled

/-- Modelled from the spec: `ItemConfig::disable_setting` sets the
disabled flag of one setting. -/
def ItemConfig.disable_setting (c : ItemConfig) : ItemSetting → ItemConfig
  | .transferable => { c with transferableDisabled := true }
  | .unlockedMetadata => { c with metadataDisabled := true }
  | .unlockedAttributes => { c with attributesDisabled := true }

/-- Modelled from the spec: `ItemConfig::enable_setting` clears the
disabled flag of one setting. -/
def ItemConfig.enable_setting (c : ItemConfig) : ItemSetting → ItemConfig
  | .transferable => { c with transferableDisabled := false }
  | .unlockedMetadata => { c with metadataDisabled := false }
  | .unlockedAttributes => { c with attributesDisabled := false }

/-- Collection-level settings. -/
inductive CollectionSetting where
  | transferableItems
  | unlockedMetadata
  | unlockedAttributes
  | depositRequired
  | unlockedMaxSupply
  deriving DecidableEq, Repr

/-- Modelled from the spec: the collection config.  The settings are one
disabled-flag per collection setting (a set flag means disabled); the
remaining fields of the real config (max supply, mint settings) are kept
abstract to state frame conditions about them. -/
structure CollectionConfig where
  transferableItemsDisabled : Bool
  metadataDisabled : Bool
  attributesDisabled : Bool
  depositRequiredDisabled : Bool
  maxSupplyDisabled : Bool
  maxSupply : Option Nat
  mintSettings : Nat
  deriving DecidableEq, Repr

/-- Modelled from the spec: `CollectionConfig::has_disabled_setting`. -/
def CollectionConfig.has_disabled_setting (c : CollectionConfig) :
    CollectionSetting → Bool
  | .transferableItems => c.transferableItemsDisabled
  | .unlockedMetadata => c.metadataDisabled
  | .unlockedAttributes => c.attributesDisabled
  | .depositRequired => c.depositRequiredDisabled
  | .unlockedMaxSupply => c.maxSupplyDisabled

/-- Modelled from the spec: `CollectionConfig::disable_setting`. -/
def CollectionConfig.disable_setting (c : CollectionConfig) :
    CollectionSetting → CollectionConfig
  | .transferableItems => { c with transferableItemsDisabled := true }
  | .unlockedMetadata => { c with metadataDisabled := true }
  | .unlockedAttributes => { c with attributesDisabled := true }
  | .depositRequired => { c with depositRequiredDisabled := true }
  | .unlockedMaxSupply => { c with maxSupplyDisabled := true }

/-- The collection record; the lock features only read the owner. -/
structure CollectionDetails where
  owner : AccountId
  deriving DecidableEq, Repr

/-- The pallet dispatch errors reachable from the lock features. -/
inductive DispatchError where
  | noPermission
  | noConfig
  | unknownCollection
  | unknownItem
  deriving DecidableEq, Repr

/-- The storage the lock features touch: the collection records
(`Collection`), the collection configs (`CollectionConfigOf`), the item
configs (`ItemConfigOf`) and the role assignments consulted by
`has_role`. -/
structure NftState where
  collections : Nat → Option CollectionDetails
  collectionConfigs : Nat → Option CollectionConfig
  itemConfigs : Nat → Nat → Option ItemConfig
  roles : Nat → AccountId → CollectionRole → Bool

/-- `Pallet::has_role`: whether the account holds the role in the
collection. -/
def has_role (st : NftState) (collection : Nat) (account : AccountId)
    (role : CollectionRole) : Bool :=
  st.roles collection account role

/-- `Pallet::get_item_config` (`settings.rs` lines 34-41): the stored
item config, or `UnknownItem`. -/
def get_item_config (st : NftState) (collection item : Nat) :
    Except DispatchError ItemConfig :=
  match st.itemConfigs collection item with
  | none => .error .unknownItem
  | some config => .ok config

/-- `Pallet::get_collection_config` (`settings.rs` lines 26-32): the
stored collection config, or `UnknownCollection`. -/
def get_collection_config (st : NftState) (collection : Nat) :
    Except DispatchError CollectionConfig :=
  match st.collectionConfigs collection with
  | none => .error .unknownCollection
  | some config => .ok config

/-- The settings mutation of `do_lock_collection` (`lock.rs` lines
34-42): disable in the stored config exactly those of
TransferableItems / UnlockedMetadata / UnlockedAttributes that the lock
config has disabled, in that order. -/
def lockCollectionSettings (lock_config config : CollectionConfig) :
    CollectionConfig :=
  let config :=
    if lock_config.has_disabled_setting .transferableItems then
      config.disable_setting .transferableItems
    else config
  let config :=
    if lock_config.has_disabled_setting .unlockedMetadata then
      config.disable_setting .unlockedMetadata
    else config
  if lock_config.has_disabled_setting .unlockedAttributes then
    config.disable_setting .unlockedAttributes
  else config

/-- `do_lock_collection` (`lock.rs` lines 22-47): requires the Freezer
role, then inside `try_mutate` disables in the stored config exactly
those of TransferableItems / UnlockedMetadata / UnlockedAttributes that
the lock config has disabled.  Returns the verdict and the resulting
storage (unchanged on error, as `try_mutate` discards the mutation). -/
def do_lock_collection (st : NftState) (origin : AccountId)
    (collection : Nat) (lock_config : CollectionConfig) :
    Except DispatchError Unit × NftState :=
  if ¬ has_role st collection origin .freezer then (.error .noPermission, st)
  else
    match st.collectionConfigs collection with
    | none => (.error .noConfig, st)
    | some config =>
      let configs2 := fun c =>
        if c = collection then
          some (lockCollectionSettings lock_config config)
        else st.collectionConfigs c
      (.ok (), { st with collectionConfigs := configs2 })

/-- `do_lock_item_transfer` (`lock.rs` lines 49-67): requires the
Freezer role, reads the item config via `get_item_config`, disables
Transferable if it is not already disabled, and writes the config back
with `ItemConfigOf::insert`. -/
def do_lock_item_transfer (st : NftState) (origin : AccountId)
    (collection item : Nat) : Except DispatchError Unit × NftState :=
  if ¬ has_role st collection origin .freezer then (.error .noPermission, st)
  else
    match get_item_config st collection item with
    | .error e => (.error e, st)
    | .ok config =>
      let config :=
        if ¬ config.has_disabled_setting .transferable then
          config.disable_setting .transferable
        else config
      (.ok (), { st with itemConfigs :=
        fun c i => if c = collection ∧ i = item then some config
                   else st.itemConfigs c i })

/-- `do_unlock_item_transfer` (`lock.rs` lines 69-87): requires the
Freezer role, reads the item config via `get_item_config`, enables
Transferable if it is disabled, and writes the config back. -/
def do_unlock_item_transfer (st : NftState) (origin : AccountId)
    (collection item : Nat) : Except DispatchError Unit × NftState :=
  if ¬ has_role st collection origin .freezer then (.error .noPermission, st)
  else
    match get_item_config st collection item with
    | .error e => (.error e, st)
    | .ok config =>
      let config :=
        if config.has_disabled_setting .transferable then
          config.enable_setting .transferable
        else config
      (.ok (), { st with itemConfigs :=
        fun c i => if c = collection ∧ i = item then some config
                   else st.itemConfigs c i })

/-- The settings mutation of `do_lock_item_properties` (`lock.rs` lines
106-111): disable UnlockedMetadata when `lock_metadata` and
UnlockedAttributes when `lock_attributes`. -/
def lockItemSettings (lock_metadata lock_attributes : Bool)
    (config : ItemConfig) : ItemConfig :=
  let config :=
    if lock_metadata then config.disable_setting .unlockedMetadata
    else config
  if lock_attributes then config.disable_setting .unlockedAttributes
  else config

/-- `do_lock_item_properties` (`lock.rs` lines 89-121): looks up the
collection record (`UnknownCollection` if absent); when
`maybe_check_owner` is `some`, requires it to equal the collection
owner; then inside `try_mutate` over the item config (`UnknownItem` if
absent) disables UnlockedMetadata when `lock_metadata` and
UnlockedAttributes when `lock_attributes`.  No role check is made. -/
def do_lock_item_properties (st : NftState)
    (maybe_check_owner : Option AccountId) (collection item : Nat)
    (lock_metadata lock_attributes : Bool) :
    Except DispatchError Unit × NftState :=
  match st.collections collection with
  | none => (.error .unknownCollection, st)
  | some collection_details =>
    let owner_check : Except DispatchError Unit :=
      match maybe_check_owner with
      | some check_owner =>
        if check_owner = collection_details.owner then .ok ()
        else .error .noPermission
      | none => .ok ()
    match owner_check with
    | .error e => (.error e, st)
    | .ok () =>
      match st.itemConfigs collection item with
      | none => (.error .unknownItem, st)
      | some config =>
        let configs2 := fun c i =>
          if c = collection ∧ i = item then
            some (lockItemSettings lock_metadata lock_attributes config)
          else st.itemConfigs c i
        (.ok (), { st with itemConfigs := configs2 })

/-! The lock features also deposit events (`CollectionLocked`,
`ItemTransferLocked`, `ItemTransferUnlocked`, `ItemPropertiesLocked`);
the claims under verification do not concern events, so the embedding
omits the event queue. -/

end Nfts

/-! # Theorems -/

namespace Substrate

/-- Reading one dimension succeeds exactly when eight bytes remain. -/
theorem readU64LE_eq (bs : Bytes) :
    readU64LE bs = if 8 ≤ bs.length then
      some (u64FromLE (bs.take 8), bs.drop 8) else none := rfl

/-- Decoding one record succeeds exactly when sixteen bytes remain, and
consumes exactly sixteen. -/
theorem decodeWeight_eq (bs : Bytes) :
    decodeWeight bs = if 16 ≤ bs.length then
      some (⟨u64FromLE (bs.take 8), u64FromLE ((bs.drop 8).take 8)⟩,
        bs.drop 16)
    else none := by
  unfold decodeWeight readU64LE
  by_cases h8 : 8 ≤ bs.length
  · by_cases h16 : 16 ≤ bs.length
    · have hr : 8 ≤ bs.length - 8 := by omega
      simp [h8, hr, h16]
    · have hr : ¬ 8 ≤ bs.length - 8 := by omega
      simp [h8, hr, h16]
  · have h16 : ¬ 16 ≤ bs.length := by omega
    simp [h8, h16]

/-- Helper: decoding the raw return succeeds exactly when the input
holds at least the thirty-two bytes of two fixed-layout records. -/
theorem decodeWeightPair_ok_iff (raw : Bytes) :
    ((decodeWeightPair raw).isOk ↔ 32 ≤ raw.length) ∧
    (raw.length < 32 → decodeWeightPair raw = .error .decodeError) := by
  have hlen : (raw.drop 16).length = raw.length - 16 := by
    simp only [List.length_drop]
  unfold decodeWeightPair
  by_cases h32 : 32 ≤ raw.length
  · have h16 : 16 ≤ raw.length := by omega
    have h2 : 16 ≤ raw.length - 16 := by omega
    simp [decodeWeight_eq, hlen, h16, h2, h32, Except.isOk, Except.toBool]
  · by_cases h16 : 16 ≤ raw.length
    · have h2 : ¬ 16 ≤ raw.length - 16 := by omega
      simp [decodeWeight_eq, hlen, h16, h2, h32, Except.isOk, Except.toBool]
    · simp [decodeWeight_eq, hlen, h16, h32, Except.isOk, Except.toBool]

/-- C1 counterexample: a thirty-three byte raw return — the two
fixed-layout records plus one trailing byte — decodes successfully to
the pair of zero weights instead of failing with a DecodeError, so
trailing bytes beyond the two records are not rejected. -/
theorem claim_C1_counterexample :
    (List.replicate 33 0 : Bytes).length = 33 ∧
    decodeWeightPair (List.replicate 33 0) =
      .ok (⟨0, 0⟩, ⟨0, 0⟩) := by
  constructor
  · rfl
  · rfl

/-- C1 (amended): the decode of the raw return succeeds exactly when the
input contains at least the thirty-two bytes of the two consecutive
fixed-layout records (consumed, then total); an input with missing bytes
fails with a DecodeError, while trailing bytes beyond the two records
are ignored — the pair is decoded from the prefix and no failure
occurs. -/
theorem claim_C1_decode_amended (raw : Bytes) :
    ((decodeWeightPair raw).isOk ↔ 32 ≤ raw.length) ∧
    (raw.length < 32 → decodeWeightPair raw = .error .decodeError) :=
  decodeWeightPair_ok_iff raw

/-- C1 witness: a thirty-one byte input fails with a DecodeError and a
thirty-two byte input decodes successfully. -/
theorem claim_C1_decode_amended_witness :
    decodeWeightPair (List.replicate 31 0) = .error .decodeError ∧
    (decodeWeightPair (List.replicate 32 0)).isOk := by
  constructor
  · exact (claim_C1_decode_amended (List.replicate 31 0)).2 (by simp)
  · exact ((claim_C1_decode_amended (List.replicate 32 0)).1).mpr (by simp)

/-- C2: the reported utilization ratio of each dimension equals
consumed divided by max(total, 1) times one hundred; with a zero total
the denominator floor of one applies and the denominator is never zero;
and for consumed = (100, 50), total = (1000, 1000) the ratios are
exactly 10 and 5 percent. -/
theorem claim_C2_ratios :
    (∀ w tw : Weight,
      (mkReport w tw).refTimeRatio
        = (w.ref_time : ℚ) / ((max tw.ref_time 1 : Nat) : ℚ) * 100 ∧
      (mkReport w tw).proofSizeRatio
        = (w.proof_size : ℚ) / ((max tw.proof_size 1 : Nat) : ℚ) * 100) ∧
    (∀ w : Weight,
      (mkReport w ⟨0, 0⟩).refTimeRatio = (w.ref_time : ℚ) * 100 ∧
      (mkReport w ⟨0, 0⟩).proofSizeRatio = (w.proof_size : ℚ) * 100) ∧
    (mkReport ⟨100, 50⟩ ⟨1000, 1000⟩).refTimeRatio = 10 ∧
    (mkReport ⟨100, 50⟩ ⟨1000, 1000⟩).proofSizeRatio = 5 ∧
    (∀ t : Nat, ((max t 1 : Nat) : ℚ) ≠ 0) := by
  refine ⟨fun w tw => ⟨rfl, rfl⟩, fun w => ⟨?_, ?_⟩, ?_, ?_, fun t => ?_⟩
  · simp [mkReport, ratio]
  · simp [mkReport, ratio]
  · show ratio 100 1000 = 10
    rw [ratio, show (max 1000 1 : Nat) = 1000 from rfl]
    norm_num
  · show ratio 50 1000 = 5
    rw [ratio, show (max 1000 1 : Nat) = 1000 from rfl]
    norm_num
  · have h1 : max t 1 ≠ 0 := by omega
    exact_mod_cast h1

/-- Helper: a key not among the injected keys keeps its base value. -/
theorem inject_not_mem (base : Overlay) (pairs : List (Bytes × Bytes))
    (k : Bytes) (hk : k ∉ pairs.map Prod.fst) :
    inject base pairs k = base k := by
  induction pairs generalizing base with
  | nil => rfl
  | cons p rest ih =>
    obtain ⟨pk, pv⟩ := p
    simp only [List.map_cons, List.mem_cons] at hk
    push_neg at hk
    obtain ⟨h1, h2⟩ := hk
    show inject (fun k2 => if k2 = pk then some pv else base k2) rest k = base k
    rw [ih _ h2]
    simp [h1]

/-- Helper: an injected pair's key maps to the injected value, provided
the injected keys are distinct. -/
theorem inject_mem (base : Overlay) (pairs : List (Bytes × Bytes))
    (k v : Bytes) (hnd : (pairs.map Prod.fst).Nodup)
    (hmem : (k, v) ∈ pairs) : inject base pairs k = some v := by
  induction pairs generalizing base with
  | nil => cases hmem
  | cons p rest ih =>
    obtain ⟨pk, pv⟩ := p
    simp only [List.map_cons, List.nodup_cons] at hnd
    obtain ⟨hknotin, hnd2⟩ := hnd
    rcases List.mem_cons.mp hmem with heq | hmem2
    · obtain ⟨rfl, rfl⟩ := Prod.mk.injEq k v pk pv ▸ heq
      show inject (fun k2 => if k2 = k then some v else base k2) rest k = some v
      rw [inject_not_mem _ _ _ hknotin]
      simp
    · exact ih _ hnd2 hmem2

/-- C5: the built overlay maps every injected key (keys distinct as in
this pipeline's single code pair) to exactly its injected value,
overriding the base, maps every non-injected key to its base value
unchanged, and in particular maps the well-known code key to the
injected code payload when the injected pairs are the single code
pair. -/
theorem claim_C5_overlay_inject (base : Overlay)
    (pairs : List (Bytes × Bytes)) (hnd : (pairs.map Prod.fst).Nodup) :
    (∀ k v, (k, v) ∈ pairs → inject base pairs k = some v) ∧
    (∀ k, k ∉ pairs.map Prod.fst → inject base pairs k = base k) ∧
    (∀ code_key code, inject base [(code_key, code)] code_key = some code) :=
  ⟨fun k v h => inject_mem base pairs k v hnd h,
   fun k h => inject_not_mem base pairs k h,
   fun ck c => by
    show (if ck = ck then some c else base ck) = some c
    simp⟩

/-- C5 witness: with an empty base and the single pair ([0], [1]), the
overlay maps [0] to [1]. -/
theorem claim_C5_overlay_inject_witness :
    inject (fun _ => none) [([0], [1])] [0] = some [1] :=
  (claim_C5_overlay_inject (fun _ => none) [([0], [1])]
    (by simp)).1 [0] [1] (by simp)

/-- C6: the overlay builder is deterministic — two invocations with
identical base and identical injected pairs produce identical
overlays. -/
theorem claim_C6_build_deterministic (base1 base2 : Overlay)
    (pairs1 pairs2 : List (Bytes × Bytes))
    (h1 : base1 = base2) (h2 : pairs1 = pairs2) :
    inject base1 pairs1 = inject base2 pairs2 := by rw [h1, h2]

/-- C6 witness: two builds from the same concrete base and pairs
coincide. -/
theorem claim_C6_build_deterministic_witness :
    inject (fun _ => none) [([0], [1])] = inject (fun _ => none) [([0], [1])] :=
  claim_C6_build_deterministic (fun _ => none) (fun _ => none)
    [([0], [1])] [([0], [1])] rfl rfl

/-- C3: a Snapshot-sourced run never performs the identity consistency
check — every observable event of such a run is an entry-point
invocation, so the pipeline proceeds directly to invocation — and, once
the overlay is built successfully, the check is performed if and only if
the state source is the Live variant. -/
theorem claim_C3_check_iff_live (env : Env) (shared : SharedParams)
    (cmd : OnRuntimeUpgradeCmd) :
    (∀ path, cmd.state = .snap path →
      ∀ ev ∈ (on_runtime_upgrade env shared cmd).2, ev.isSpecCheck = false) ∧
    (∀ path, cmd.state = .snap path →
      ∀ ev ∈ (on_runtime_upgrade env shared cmd).2, ev.isInvoke = true) ∧
    ((env.builderOk cmd.state).isOk → env.extractCode.isOk →
      (env.fetch cmd.state).isOk →
      ((∃ ev ∈ (on_runtime_upgrade env shared cmd).2, ev.isSpecCheck = true)
        ↔ (cmd.state.live_uri).isSome)) := by
  obtain ⟨state⟩ := cmd
  have hsnap : ∀ path, state = .snap path →
      ∀ ev ∈ (on_runtime_upgrade env shared ⟨state⟩).2,
        ev.isSpecCheck = false ∧ ev.isInvoke = true := by
    rintro path rfl ev hev
    revert hev
    rcases hb : env.builderOk (State.snap path) with e | u
    · simp [on_runtime_upgrade, hb]
    · rcases he : env.extractCode with e | ⟨ck, c⟩
      · simp [on_runtime_upgrade, hb, he]
      · rcases hf : env.fetch (State.snap path) with e | base
        · simp [on_runtime_upgrade, hb, he, hf]
        · rcases hc : env.call (inject base [(ck, c)])
              onRuntimeUpgradeEntryPoint [] shared.execution
              defaultExtensions with e | ⟨pf, enc⟩
          · simp [on_runtime_upgrade, hb, he, hf, hc, State.live_uri]
            rintro rfl
            simp [PipelineEvent.isSpecCheck, PipelineEvent.isInvoke]
          · rcases hd : decodeWeightPair enc with e | ⟨w, tw⟩ <;>
              · simp [on_runtime_upgrade, hb, he, hf, hc, hd, State.live_uri]
                rintro rfl
                simp [PipelineEvent.isSpecCheck, PipelineEvent.isInvoke]
  refine ⟨fun path hp ev hev => (hsnap path hp ev hev).1,
    fun path hp ev hev => (hsnap path hp ev hev).2, ?_⟩
  intro hb1 he1 hf1
  rcases hb : env.builderOk state with e | u
  · rw [hb] at hb1; simp [Except.isOk, Except.toBool] at hb1
  rcases he : env.extractCode with e | ⟨ck, c⟩
  · rw [he] at he1; simp [Except.isOk, Except.toBool] at he1
  rcases hf : env.fetch state with e | base
  · rw [hf] at hf1; simp [Except.isOk, Except.toBool] at hf1
  cases state with
  | snap path =>
    rcases hc : env.call (inject base [(ck, c)]) onRuntimeUpgradeEntryPoint
        [] shared.execution defaultExtensions with e | ⟨pf, enc⟩
    · simp [on_runtime_upgrade, hb, he, hf, hc, State.live_uri,
        PipelineEvent.isSpecCheck]
    · rcases hd : decodeWeightPair enc with e | ⟨w, tw⟩ <;>
        simp [on_runtime_upgrade, hb, he, hf, hc, hd, State.live_uri,
          PipelineEvent.isSpecCheck]
  | live uri ab =>
    rcases hc : env.call (inject base [(ck, c)]) onRuntimeUpgradeEntryPoint
        [] shared.execution defaultExtensions with e | ⟨pf, enc⟩
    · by_cases heq : env.localSpec (inject base [(ck, c)])
          = env.liveSpec uri <;>
        by_cases hflag : shared.no_spec_check_panic = true <;>
        simp [on_runtime_upgrade, hb, he, hf, hc, State.live_uri,
          ensure_matching_spec, heq, hflag, PipelineEvent.isSpecCheck]
    · rcases hd : decodeWeightPair enc with e2 | ⟨w, tw⟩ <;>
        by_cases heq : env.localSpec (inject base [(ck, c)])
          = env.liveSpec uri <;>
        by_cases hflag : shared.no_spec_check_panic = true <;>
        simp [on_runtime_upgrade, hb, he, hf, hc, hd, State.live_uri,
          ensure_matching_spec, heq, hflag, PipelineEvent.isSpecCheck]

/-- C3 witness: with a snapshot state source and trivially succeeding
collaborators, every event of the run is an invocation and the check is
performed for no event. -/
theorem claim_C3_check_iff_live_witness :
    ∀ ev ∈ (on_runtime_upgrade
      ⟨fun _ => .ok (), .ok ([0], [1]), fun _ => .ok (fun _ => none),
        fun _ => ⟨"demo", 5⟩, fun _ => ⟨"demo", 5⟩,
        fun _ _ _ _ _ => .ok ([], List.replicate 32 0)⟩
      ⟨.native, false⟩ ⟨.snap "p"⟩).2, ev.isSpecCheck = false :=
  (claim_C3_check_iff_live
    ⟨fun _ => .ok (), .ok ([0], [1]), fun _ => .ok (fun _ => none),
      fun _ => ⟨"demo", 5⟩, fun _ => ⟨"demo", 5⟩,
      fun _ _ _ _ _ => .ok ([], List.replicate 32 0)⟩
    ⟨.native, false⟩ ⟨.snap "p"⟩).1 "p" rfl

/-- C4: on a Live run with successfully built overlay whose local
identity differs from the live endpoint's identity: under the strict
policy (relaxation flag off) the pipeline aborts with a
ConsistencyError and the entry-point invoker is never called; under the
non-strict policy a warning is logged and the pipeline proceeds to the
invocation. -/
theorem claim_C4_mismatch_policy (env : Env) (shared : SharedParams)
    (cmd : OnRuntimeUpgradeCmd) (uri : String) (ab : Option Nat)
    (code_key code : Bytes) (base : Overlay)
    (hlive : cmd.state = .live uri ab)
    (hb : env.builderOk cmd.state = .ok ())
    (he : env.extractCode = .ok (code_key, code))
    (hf : env.fetch cmd.state = .ok base)
    (hmm : env.localSpec (inject base [(code_key, code)])
      ≠ env.liveSpec uri) :
    (shared.no_spec_check_panic = false →
      (on_runtime_upgrade env shared cmd).1 = .error .consistencyError ∧
      ∀ ev ∈ (on_runtime_upgrade env shared cmd).2, ev.isInvoke = false) ∧
    (shared.no_spec_check_panic = true →
      PipelineEvent.warning ∈ (on_runtime_upgrade env shared cmd).2 ∧
      PipelineEvent.invoke onRuntimeUpgradeEntryPoint [] shared.execution
        defaultExtensions ∈ (on_runtime_upgrade env shared cmd).2) := by
  obtain ⟨state⟩ := cmd
  simp only [OnRuntimeUpgradeCmd.state] at hlive hb hf hmm
  subst hlive
  constructor
  · intro hflag
    constructor
    · simp [on_runtime_upgrade, hb, he, hf, State.live_uri,
        ensure_matching_spec, hmm, hflag]
    · intro ev hev
      revert hev
      simp [on_runtime_upgrade, hb, he, hf, State.live_uri,
        ensure_matching_spec, hmm, hflag]
      rintro rfl
      simp [PipelineEvent.isInvoke]
  · intro hflag
    rcases hc : env.call (inject base [(code_key, code)])
        onRuntimeUpgradeEntryPoint [] shared.execution
        defaultExtensions with e | ⟨pf, enc⟩
    · simp [on_runtime_upgrade, hb, he, hf, State.live_uri,
        ensure_matching_spec, hmm, hflag, hc]
    · rcases hd : decodeWeightPair enc with e | ⟨w, tw⟩ <;>
        simp [on_runtime_upgrade, hb, he, hf, State.live_uri,
          ensure_matching_spec, hmm, hflag, hc, hd]

/-- C4 witness: with mismatching identities ("a", 1) versus ("a", 2)
under the strict policy, the concrete run aborts with a
ConsistencyError. -/
theorem claim_C4_mismatch_policy_witness :
    (on_runtime_upgrade
      ⟨fun _ => .ok (), .ok ([0], [1]), fun _ => .ok (fun _ => none),
        fun _ => ⟨"a", 1⟩, fun _ => ⟨"a", 2⟩,
        fun _ _ _ _ _ => .ok ([], List.replicate 32 0)⟩
      ⟨.native, false⟩ ⟨.live "u" none⟩).1 = .error .consistencyError :=
  ((claim_C4_mismatch_policy
    ⟨fun _ => .ok (), .ok ([0], [1]), fun _ => .ok (fun _ => none),
      fun _ => ⟨"a", 1⟩, fun _ => ⟨"a", 2⟩,
      fun _ _ _ _ _ => .ok ([], List.replicate 32 0)⟩
    ⟨.native, false⟩ ⟨.live "u" none⟩ "u" none [0] [1] (fun _ => none)
    rfl rfl rfl rfl (by simp)).1 rfl).1

/-- C7: every successful run calls the entry-point invoker exactly once,
with the pipeline-hardcoded entry-point name, empty encoded arguments,
the caller's execution mode unchanged, and default (empty)
extensions. -/
theorem claim_C7_single_invocation (env : Env) (shared : SharedParams)
    (cmd : OnRuntimeUpgradeCmd) (r : Report)
    (hok : (on_runtime_upgrade env shared cmd).1 = .ok r) :
    ((on_runtime_upgrade env shared cmd).2).filter
      (fun ev => ev.isInvoke) =
    [PipelineEvent.invoke onRuntimeUpgradeEntryPoint [] shared.execution
      defaultExtensions] := by
  obtain ⟨state⟩ := cmd
  rcases hb : env.builderOk state with e | u
  · simp [on_runtime_upgrade, hb] at hok
  rcases he : env.extractCode with e | ⟨ck, c⟩
  · simp [on_runtime_upgrade, hb, he] at hok
  rcases hf : env.fetch state with e | base
  · simp [on_runtime_upgrade, hb, he, hf] at hok
  rcases hc : env.call (inject base [(ck, c)]) onRuntimeUpgradeEntryPoint
      [] shared.execution defaultExtensions with e | ⟨pf, enc⟩
  · cases state with
    | snap path =>
      simp [on_runtime_upgrade, hb, he, hf, hc, State.live_uri] at hok
    | live uri ab =>
      by_cases heq : env.localSpec (inject base [(ck, c)])
          = env.liveSpec uri <;>
        by_cases hflag : shared.no_spec_check_panic = true <;>
        simp [on_runtime_upgrade, hb, he, hf, hc, State.live_uri,
          ensure_matching_spec, heq, hflag] at hok
  · rcases hd : decodeWeightPair enc with e2 | ⟨w, tw⟩
    · cases state with
      | snap path =>
        simp [on_runtime_upgrade, hb, he, hf, hc, hd, State.live_uri] at hok
      | live uri ab =>
        by_cases heq : env.localSpec (inject base [(ck, c)])
            = env.liveSpec uri <;>
          by_cases hflag : shared.no_spec_check_panic = true <;>
          simp [on_runtime_upgrade, hb, he, hf, hc, hd, State.live_uri,
            ensure_matching_spec, heq, hflag] at hok
    · cases state with
      | snap path =>
        simp [on_runtime_upgrade, hb, he, hf, hc, hd, State.live_uri,
          PipelineEvent.isInvoke]
      | live uri ab =>
        by_cases heq : env.localSpec (inject base [(ck, c)])
            = env.liveSpec uri <;>
          by_cases hflag : shared.no_spec_check_panic = true <;>
          simp [on_runtime_upgrade, hb, he, hf, hc, hd, State.live_uri,
            ensure_matching_spec, heq, hflag, PipelineEvent.isInvoke,
            PipelineEvent.isSpecCheck] at hok ⊢

/-- C7 witness: a concrete successful snapshot run whose trace, filtered
to invocations, is exactly the single hardcoded invocation. -/
theorem claim_C7_single_invocation_witness :
    ((on_runtime_upgrade
      ⟨fun _ => .ok (), .ok ([0], [1]), fun _ => .ok (fun _ => none),
        fun _ => ⟨"demo", 5⟩, fun _ => ⟨"demo", 5⟩,
        fun _ _ _ _ _ => .ok ([], List.replicate 32 0)⟩
      ⟨.native, false⟩ ⟨.snap "p"⟩).2).filter (fun ev => ev.isInvoke) =
    [PipelineEvent.invoke onRuntimeUpgradeEntryPoint []
      ExecutionMode.native defaultExtensions] :=
  claim_C7_single_invocation
    ⟨fun _ => .ok (), .ok ([0], [1]), fun _ => .ok (fun _ => none),
      fun _ => ⟨"demo", 5⟩, fun _ => ⟨"demo", 5⟩,
      fun _ _ _ _ _ => .ok ([], List.replicate 32 0)⟩
    ⟨.native, false⟩ ⟨.snap "p"⟩
    (mkReport ⟨0, 0⟩ ⟨0, 0⟩) rfl

end Substrate

namespace Nfts

/-- C8: for an existing collection and item, `do_lock_item_properties`
with no owner check succeeds for any caller and disables the requested
settings; an owner check happens only when `maybe_check_owner` is some
(failing with NoPermission for a non-owner, passing for the owner); and
no role check of any kind is made — the verdict is independent of the
role assignments. -/
theorem claim_C8_lock_item_properties_no_role_check (st : NftState)
    (collection item : Nat) (details : CollectionDetails)
    (config : ItemConfig) (lock_metadata lock_attributes : Bool)
    (hc : st.collections collection = some details)
    (hi : st.itemConfigs collection item = some config) :
    (do_lock_item_properties st none collection item lock_metadata
      lock_attributes).1 = .ok () ∧
    (∃ cf, ((do_lock_item_properties st none collection item lock_metadata
        lock_attributes).2).itemConfigs collection item = some cf ∧
      (lock_metadata = true → cf.metadataDisabled = true) ∧
      (lock_attributes = true → cf.attributesDisabled = true)) ∧
    (∀ o, o ≠ details.owner →
      do_lock_item_properties st (some o) collection item lock_metadata
        lock_attributes = (.error .noPermission, st)) ∧
    (do_lock_item_properties st (some details.owner) collection item
      lock_metadata lock_attributes).1 = .ok () ∧
    (∀ roles2 mo,
      (do_lock_item_properties { st with roles := roles2 } mo collection item
        lock_metadata lock_attributes).1
      = (do_lock_item_properties st mo collection item lock_metadata
        lock_attributes).1) := by
  refine ⟨?_, ?_, ?_, ?_, ?_⟩
  · simp [do_lock_item_properties, hc, hi]
  · refine ⟨lockItemSettings lock_metadata lock_attributes config, ?_, ?_, ?_⟩
    · simp [do_lock_item_properties, hc, hi]
    · intro hm
      subst hm
      cases lock_attributes <;>
        simp [lockItemSettings, ItemConfig.disable_setting]
    · intro ha
      subst ha
      cases lock_metadata <;>
        simp [lockItemSettings, ItemConfig.disable_setting]
  · intro o ho
    simp [do_lock_item_properties, hc, hi, ho]
  · simp [do_lock_item_properties, hc, hi]
  · intro roles2 mo
    cases hcol : st.collections collection with
    | none => simp [do_lock_item_properties, hcol]
    | some d =>
      cases mo with
      | none =>
        cases hicfg : st.itemConfigs collection item <;>
          simp [do_lock_item_properties, hcol, hicfg]
      | some o =>
        by_cases ho : o = d.owner <;>
          cases hicfg : st.itemConfigs collection item <;>
          simp [do_lock_item_properties, hcol, hicfg, ho]

/-- C8 witness: in a concrete state with collection 0 owned by account 7
and item 0 present, the call with no owner check succeeds. -/
theorem claim_C8_lock_item_properties_no_role_check_witness :
    (do_lock_item_properties
      ⟨fun _ => some ⟨7⟩, fun _ => none,
        fun _ _ => some ⟨false, false, false⟩, fun _ _ _ => false⟩
      none 0 0 true true).1 = .ok () :=
  (claim_C8_lock_item_properties_no_role_check
    ⟨fun _ => some ⟨7⟩, fun _ => none,
      fun _ _ => some ⟨false, false, false⟩, fun _ _ _ => false⟩
    0 0 ⟨7⟩ ⟨false, false, false⟩ true true rfl rfl).1

/-- C9: on a successful `do_lock_collection`, the stored collection
config evolves monotonically — every setting disabled before stays
disabled, no setting is enabled — and only TransferableItems,
UnlockedMetadata and UnlockedAttributes can change; all other settings
and the remaining config fields are unchanged. -/
theorem claim_C9_lock_collection_monotone (st : NftState)
    (origin : AccountId) (collection : Nat)
    (lock_config config : CollectionConfig)
    (hconf : st.collectionConfigs collection = some config)
    (hok : (do_lock_collection st origin collection lock_config).1
      = .ok ()) :
    ∃ config2,
      ((do_lock_collection st origin collection
        lock_config).2).collectionConfigs collection = some config2 ∧
      (∀ s, config.has_disabled_setting s = true →
        config2.has_disabled_setting s = true) ∧
      (∀ s, config2.has_disabled_setting s = true →
        config.has_disabled_setting s = true ∨
        s = .transferableItems ∨ s = .unlockedMetadata ∨
        s = .unlockedAttributes) ∧
      (∀ s, s ≠ .transferableItems → s ≠ .unlockedMetadata →
        s ≠ .unlockedAttributes →
        config2.has_disabled_setting s = config.has_disabled_setting s) ∧
      config2.maxSupply = config.maxSupply ∧
      config2.mintSettings = config.mintSettings := by
  cases hrole : has_role st collection origin CollectionRole.freezer with
  | false => simp [do_lock_collection, hrole] at hok
  | true =>
    refine ⟨lockCollectionSettings lock_config config, ?_, ?_, ?_, ?_, ?_, ?_⟩
    · simp [do_lock_collection, hrole, hconf]
    all_goals
      cases h1 : lock_config.has_disabled_setting
          CollectionSetting.transferableItems <;>
      cases h2 : lock_config.has_disabled_setting
          CollectionSetting.unlockedMetadata <;>
      cases h3 : lock_config.has_disabled_setting
          CollectionSetting.unlockedAttributes <;>
      first
      | (intro s
         cases s <;>
           simp_all [lockCollectionSettings,
             CollectionConfig.has_disabled_setting,
             CollectionConfig.disable_setting])
      | simp_all [lockCollectionSettings,
          CollectionConfig.has_disabled_setting,
          CollectionConfig.disable_setting]

/-- C9 witness: locking a concrete collection whose lock config disables
TransferableItems, from a freezer account, yields a monotone, frame-
limited update. -/
theorem claim_C9_lock_collection_monotone_witness :
    ∃ config2,
      ((do_lock_collection
        ⟨fun _ => some ⟨7⟩,
          fun _ => some ⟨false, false, false, false, false, none, 0⟩,
          fun _ _ => none, fun _ _ _ => true⟩
        7 0 ⟨true, false, false, false, false, none, 0⟩).2).collectionConfigs
          0 = some config2 ∧
      (∀ s, CollectionConfig.has_disabled_setting
          ⟨false, false, false, false, false, none, 0⟩ s = true →
        config2.has_disabled_setting s = true) ∧
      (∀ s, config2.has_disabled_setting s = true →
        CollectionConfig.has_disabled_setting
          ⟨false, false, false, false, false, none, 0⟩ s = true ∨
        s = .transferableItems ∨ s = .unlockedMetadata ∨
        s = .unlockedAttributes) ∧
      (∀ s, s ≠ .transferableItems → s ≠ .unlockedMetadata →
        s ≠ .unlockedAttributes →
        config2.has_disabled_setting s
          = CollectionConfig.has_disabled_setting
            ⟨false, false, false, false, false, none, 0⟩ s) ∧
      config2.maxSupply = (none : Option Nat) ∧
      config2.mintSettings = 0 :=
  claim_C9_lock_collection_monotone
    ⟨fun _ => some ⟨7⟩,
      fun _ => some ⟨false, false, false, false, false, none, 0⟩,
      fun _ _ => none, fun _ _ _ => true⟩
    7 0 ⟨true, false, false, false, false, none, 0⟩
    ⟨false, false, false, false, false, none, 0⟩ rfl rfl

/-- C10: `do_lock_item_transfer` and `do_unlock_item_transfer` are
atomic on error — a caller without the Freezer role gets NoPermission, a
missing item config gives UnknownItem, and in every error case the
stored state (in particular the item config map) is unchanged. -/
theorem claim_C10_item_transfer_atomic_on_error (st : NftState)
    (origin : AccountId) (collection item : Nat) :
    (has_role st collection origin .freezer = false →
      do_lock_item_transfer st origin collection item
        = (.error .noPermission, st) ∧
      do_unlock_item_transfer st origin collection item
        = (.error .noPermission, st)) ∧
    (has_role st collection origin .freezer = true →
      st.itemConfigs collection item = none →
      do_lock_item_transfer st origin collection item
        = (.error .unknownItem, st) ∧
      do_unlock_item_transfer st origin collection item
        = (.error .unknownItem, st)) ∧
    (∀ e, (do_lock_item_transfer st origin collection item).1 = .error e →
      (do_lock_item_transfer st origin collection item).2 = st) ∧
    (∀ e, (do_unlock_item_transfer st origin collection item).1 = .error e →
      (do_unlock_item_transfer st origin collection item).2 = st) := by
  refine ⟨?_, ?_, ?_, ?_⟩
  · intro hrole
    constructor <;> simp [do_lock_item_transfer, do_unlock_item_transfer, hrole]
  · intro hrole hcfg
    constructor <;>
      simp [do_lock_item_transfer, do_unlock_item_transfer, get_item_config,
        hrole, hcfg]
  all_goals
    intro e he
    cases hrole : has_role st collection origin CollectionRole.freezer <;>
      cases hcfg : st.itemConfigs collection item <;>
      simp_all [do_lock_item_transfer, do_unlock_item_transfer,
        get_item_config]

/-- C10 witness: with no roles assigned, both operations fail with
NoPermission and leave the state unchanged. -/
theorem claim_C10_item_transfer_atomic_on_error_witness :
    do_lock_item_transfer
      ⟨fun _ => none, fun _ => none, fun _ _ => none, fun _ _ _ => false⟩
      0 0 0 =
      (.error .noPermission,
        ⟨fun _ => none, fun _ => none, fun _ _ => none, fun _ _ _ => false⟩) ∧
    do_unlock_item_transfer
      ⟨fun _ => none, fun _ => none, fun _ _ => none, fun _ _ _ => false⟩
      0 0 0 =
      (.error .noPermission,
        ⟨fun _ => none, fun _ => none, fun _ _ => none, fun _ _ _ => false⟩) :=
  (claim_C10_item_transfer_atomic_on_error
    ⟨fun _ => none, fun _ => none, fun _ _ => none, fun _ _ _ => false⟩
    0 0 0).1 rfl

end Nfts
